import Mathlib

/-!
Verification of the NOC Shop site generator (`site_gen/gen_noc_shop_list.py`).

This file gives a shallow embedding of the repository-scan, catalog-read,
clone and URL-sanitizing logic of `gen_noc_shop_list.py`, and proves the
spec's claims about it.

Modelling conventions:
* A parsed YAML value (the result of `yaml.safe_load`) is a `Yaml`.
  Python `None` is `Yaml.null` (YAML `null` and the script's own `None`
  markers are the same Python value, so they share a constructor).
* A Python `dict` built from YAML is an association list `Dict`
  (`List (String × Yaml)`); real Python dicts have unique keys, so the
  theorems that need it assume `Nodup` on the key list.
* Filesystem contents are passed in as explicit data (`RepoFS`, file
  lists), and subprocess/`shutil` effects are recorded as events and
  answered by an oracle (`CloneEnv`), so every function is executable.
* Exceptions are `Except String`; a `try`/`except` block becomes a
  `match` on the `Except` value, keeping the partially mutated record on
  the error path exactly as CPython's in-place mutation does.
-/

set_option autoImplicit false

/-- A parsed YAML document / Python value, as produced by `yaml.safe_load`.
Python `None` (both a YAML `null` document and the script's `None` markers)
is `Yaml.null`. Floats are not needed by any claim and are omitted. -/
inductive Yaml where
  | null
  | bool (b : Bool)
  | int (n : Int)
  | str (s : String)
  | list (elems : List Yaml)
  | map (kvs : List (String × Yaml))

/-- Association-list model of a Python `dict` with `String` keys. -/
abbrev Dict := List (String × Yaml)

/-- Python truthiness of a value (`isFalsy v` iff `bool(v)` is `False`). -/
def Yaml.isFalsy : Yaml → Bool
  | .null => true
  | .bool b => !b
  | .int n => n == 0
  | .str s => s == ""
  | .list elems => elems.isEmpty
  | .map kvs => kvs.isEmpty

/-- First-match association lookup (dictionary access, `glob` result
lookup, …). -/
def alookup {β : Type} : List (String × β) → String → Option β
  | [], _ => none
  | (a, b) :: l, k => if k = a then some b else alookup l k

/-- Read access `d[k]` on a dict state. -/
def Dict.get? (d : Dict) (k : String) : Option Yaml :=
  alookup d k

/-- Assignment `d[k] = v` on the association-list model: replace the
binding in place if the key is present, else append a new one (Python
dict insertion-order semantics). -/
def Dict.set (d : Dict) (k : String) (v : Yaml) : Dict :=
  if (Dict.get? d k).isSome then
    d.map (fun p => if p.1 = k then (k, v) else p)
  else
    d ++ [(k, v)]

/-- Embeds line 191, `merged_manifest.update(manifest_data)`: assign every
binding of `m` into `d`, left to right. -/
def Dict.update (d : Dict) (m : Dict) : Dict :=
  m.foldl (fun acc kv => acc.set kv.1 kv.2) d

/-! Path and string helpers (`os.path`, `str.strip`). -/

/-- Model of `os.path.join(a, b)` for a relative second component. -/
def pathJoin (a b : String) : String := a ++ "/" ++ b

/-- Model of `os.path.basename`: everything after the last slash. -/
def basename (p : String) : String :=
  String.mk (p.data.foldl (fun acc c => if c = '/' then [] else acc ++ [c]) [])

/-- Index of the last dot of a character list, if any. -/
def lastDotIdx (cs : List Char) : Option Nat :=
  cs.enum.foldl (fun acc p => if p.2 = '.' then some p.1 else acc) none

/-- The stem of `os.path.splitext` applied to a basename: cut at the last
dot, except when every character before it is itself a dot (CPython's
leading-dot rule, so `.yml` keeps its name). -/
def splitextStem (b : String) : String :=
  match lastDotIdx b.data with
  | none => b
  | some i =>
    if (b.data.take i).any (fun c => c != '.') then String.mk (b.data.take i)
    else b

/-- Python `str.strip()` (no argument): drop leading and trailing
whitespace characters. -/
def pyStrip (cs : List Char) : List Char :=
  ((cs.dropWhile Char.isWhitespace).reverse.dropWhile Char.isWhitespace).reverse

/-! The catalog reader (`read_source_files`, lines 30-53).

The globbed files are passed in as a list of (path, parse outcome): the
actual directory walk and YAML parser stay outside the model. A parse
failure is stored as Python `None`, i.e. `Yaml.null` — the same value a
successfully parsed empty document produces. -/

/-- Lines 39-53 of `read_source_files`: key every file by
`os.path.splitext(os.path.basename(f))[0]` and store the parsed content,
with `None` recorded for a file whose parse raises `yaml.YAMLError`. -/
def read_source_files (files : List (String × Except String Yaml)) :
    List (String × Yaml) :=
  files.map (fun f =>
    (splitextStem (basename f.1),
      match f.2 with
      | .ok v => v
      | .error _ => Yaml.null))

/-! The repository scanner (`scan_cloned_repositories`, lines 146-267). -/

/-- One discovered RFNoC item (a `dict` literal at lines 219-223 /
236-240 / 253-257). -/
structure RfnocItem where
  name : String
  file : String
  config : Yaml

/-- The relevant on-disk contents of one cloned repository directory,
relative to the repository root. `manifest?`/`readme?` are `none` when
`manifest.yml`/`README.md` do not exist; `existingDirs` holds the
relative paths for which `os.path.exists` answers true; `files` maps a
relative directory path to its globbed `*.yml` basenames with their
parse outcomes. -/
structure RepoFS where
  manifest? : Option (Except String Yaml) := none
  readme? : Option (List String) := none
  existingDirs : List String := []
  files : List (String × List (String × Except String Yaml)) := []

/-- The mutable `repo_info` dict initialised at lines 170-178, plus the
`error` key that line 262 may add. -/
structure RepoInfo where
  path : String
  manifest : Option Dict := none
  readme : Option String := none
  rfnoc_blocks : List RfnocItem := []
  rfnoc_modules : List RfnocItem := []
  rfnoc_transport_adapters : List RfnocItem := []
  has_rfnoc : Bool := false
  error : Option String := none

/-- Line 182: `sources.get(repo_name, {}) if sources else {}`. An absent
key and an absent/empty catalog both give the empty dict. -/
def sourceInfoOf (sources : Option (List (String × Yaml))) (name : String) :
    Yaml :=
  match sources with
  | none => .map []
  | some l => (alookup l name).getD (.map [])

/-- Line 183: `source_info.copy()` — raises `AttributeError` unless the
descriptor value is a mapping. -/
def copyStep : Yaml → Except String Dict
  | .map d => .ok d
  | _ => .error "AttributeError: copy"

/-- Python `x or {}` (line 189): a falsy value is replaced by the empty
dict. -/
def pyOrEmptyDict (y : Yaml) : Yaml :=
  if y.isFalsy then .map [] else y

/-- Lines 186-191: if `manifest.yml` exists, parse it (`yaml.YAMLError`
escapes to the per-repository handler), default a falsy document to `{}`,
and `dict.update` it over the seeded mapping; updating from a truthy
non-mapping raises. -/
def manifestMerge (d : Dict) (m : Option (Except String Yaml)) :
    Except String Dict :=
  match m with
  | none => .ok d
  | some (.error e) => .error e
  | some (.ok y) =>
    match pyOrEmptyDict y with
    | .map kvs => .ok (d.update kvs)
    | _ => .error "ValueError: dict update expects a mapping"

/-- Lines 199-201: `''.join(f.readlines()[:100]).strip()`. -/
def readmeExcerpt (lines : List String) : String :=
  String.mk (pyStrip (String.join (lines.take 100)).data)

/-- Line 205: `source_info.get('rfnoc_path', 'rfnoc')`, then used as an
`os.path.join` component — a present non-string value raises `TypeError`
inside the guarded block. -/
def rfnocSubpath (d : Dict) : Except String String :=
  match d.get? "rfnoc_path" with
  | none => .ok "rfnoc"
  | some (.str s) => .ok s
  | some _ => .error "TypeError: join component must be str"

/-- The globbed `*.yml` files of a directory (empty when the directory is
unknown, as `glob` returns an empty list). -/
def RepoFS.filesAt (fs : RepoFS) (p : String) :
    List (String × Except String Yaml) :=
  (alookup fs.files p).getD []

/-- One of the three identical per-item loops (lines 214-225, 231-242,
248-259): every globbed document becomes an item keyed by its filename
stem, holding the file path and parsed contents; a `yaml.YAMLError` for
an item is caught there and the item is skipped. -/
def scanItems (dirPath : String)
    (files : List (String × Except String Yaml)) : List RfnocItem :=
  files.foldl (fun acc f =>
    match f.2 with
    | .ok y =>
      acc ++ [{ name := splitextStem f.1, file := pathJoin dirPath f.1,
                config := y }]
    | .error _ => acc) []

/-- The body of the `try` at lines 180-259 for one repository. On an
exception the partially mutated `repo_info` travels with the error, since
CPython mutates the record in place. -/
def scanRepoE (sources : Option (List (String × Yaml)))
    (cloneDir name : String) (fs : RepoFS) :
    Except (String × RepoInfo) RepoInfo :=
  let repoPath := pathJoin cloneDir name
  let info0 : RepoInfo := { path := repoPath }
  match copyStep (sourceInfoOf sources name) with
  | .error e => .error (e, info0)
  | .ok d =>
    match manifestMerge d fs.manifest? with
    | .error e => .error (e, info0)
    | .ok merged =>
      let info1 := { info0 with manifest := some merged }
      let info2 :=
        match fs.readme? with
        | none => info1
        | some lines => { info1 with readme := some (readmeExcerpt lines) }
      match rfnocSubpath d with
      | .error e => .error (e, info2)
      | .ok sub =>
        if fs.existingDirs.contains sub then
          let blocksPath := pathJoin sub "blocks"
          let modulesPath := pathJoin sub "modules"
          let transportPath := pathJoin sub "transport_adapters"
          .ok { info2 with
                has_rfnoc := true,
                rfnoc_blocks :=
                  if fs.existingDirs.contains blocksPath then
                    scanItems (pathJoin repoPath blocksPath)
                      (fs.filesAt blocksPath)
                  else [],
                rfnoc_modules :=
                  if fs.existingDirs.contains modulesPath then
                    scanItems (pathJoin repoPath modulesPath)
                      (fs.filesAt modulesPath)
                  else [],
                rfnoc_transport_adapters :=
                  if fs.existingDirs.contains transportPath then
                    scanItems (pathJoin repoPath transportPath)
                      (fs.filesAt transportPath)
                  else [] }
        else .ok info2

/-- Lines 180-263: run the guarded scan; the `except Exception` handler
records the error on the (partially filled) record and keeps it. -/
def scanRepo (sources : Option (List (String × Yaml)))
    (cloneDir name : String) (fs : RepoFS) : RepoInfo :=
  match scanRepoE sources cloneDir name fs with
  | .ok info => info
  | .error (e, part) =>
    { part with error := some ("Error scanning repository: " ++ e) }

/-- Lines 156-267 of `scan_cloned_repositories`: an absent working
directory yields the empty mapping; otherwise every subdirectory is
scanned and contributes exactly one record (line 265 runs outside the
`try`). -/
def scan_cloned_repositories (cloneDirExists : Bool) (cloneDir : String)
    (repoDirs : List (String × RepoFS))
    (sources : Option (List (String × Yaml))) : List (String × RepoInfo) :=
  if cloneDirExists then
    repoDirs.map (fun p => (p.1, scanRepo sources cloneDir p.1 p.2))
  else []

/-! The repository fetcher (`clone_repositories`, lines 56-143).

Filesystem and subprocess effects are answered by an oracle `CloneEnv`
and logged as `CloneEvent`s; an exception that no handler in the
function catches surfaces as `Except.error` of the whole call, exactly
as it would abort the Python loop. -/

/-- Outcome of the `subprocess.run(..., check=True)` call: normal return,
`CalledProcessError`, or any other exception. -/
inductive GitOutcome where
  | success
  | calledProcessError (stderr : String)
  | unexpected (msg : String)

/-- Oracle for the effects of `clone_repositories`: `os.path.exists` on
the target path, the `shutil.rmtree` outcome (`some msg` = raised), and
the subprocess outcome for a given argv. -/
structure CloneEnv where
  dirExists : String → Bool
  rmtreeError : String → Option String
  git : List Yaml → GitOutcome

/-- Side effects performed for one catalog entry. -/
inductive CloneEvent where
  | rmtree (path : String)
  | runGit (cmd : List Yaml)

/-- One per-repository result dict of `clone_repositories` (lines 77, 81,
120-125, 129-133, 136-140). -/
structure CloneResult where
  status : String
  message : Option String := none
  path : Option String := none
  branch : Option Yaml := none
  url : Option String := none

/-- Bool substring test: does `pat` occur contiguously in `s`? -/
def isSubstring (pat : List Char) : List Char → Bool
  | [] => pat.isEmpty
  | c :: cs => pat.isPrefixOf (c :: cs) || isSubstring pat cs

/-- Python `'k' in y` (line 80): key test on a dict, substring test on a
str, element test on a list, `TypeError` otherwise. -/
def pyContains (y : Yaml) (k : String) : Except String Bool :=
  match y with
  | .map d => .ok (Dict.get? d k).isSome
  | .str s => .ok (isSubstring k.data s.data)
  | .list elems =>
    .ok (elems.any (fun e => match e with | .str s => s == k | _ => false))
  | _ => .error "TypeError: argument is not iterable"

/-- Python `y['k']` (line 85): only a mapping is subscriptable by a
string key. -/
def pyGetItem (y : Yaml) (k : String) : Except String Yaml :=
  match y with
  | .map d =>
    match Dict.get? d k with
    | some v => .ok v
    | none => .error "KeyError"
  | _ => .error "TypeError: not subscriptable"

/-- Python `y.get('k')` (line 90), reached only with a dict. -/
def pyDictGet (y : Yaml) (k : String) : Option Yaml :=
  match y with
  | .map d => Dict.get? d k
  | _ => none

/-- Lines 75-141, the body of the fetch loop for one entry.
`Except.error` is an exception no handler in the function catches (it
aborts the whole loop); `.ok` carries the recorded result dict and the
effects performed for this entry. -/
def cloneOne (env : CloneEnv) (cloneDir name : String) (config : Yaml) :
    Except String (CloneResult × List CloneEvent) :=
  match config with
  | .null =>
    .ok ({ status := "error", message := some "Invalid YAML config" }, [])
  | _ =>
    match pyContains config "source" with
    | .error e => .error e
    | .ok false =>
      .ok ({ status := "error", message := some "No source URL found" }, [])
    | .ok true =>
      match pyGetItem config "source" with
      | .error e => .error e
      | .ok srcVal =>
        match srcVal with
        | .str url0 =>
          let git_url := if url0.startsWith "git+" then url0.drop 4 else url0
          let branch? := pyDictGet config "gitbranch"
          let branchTruthy :=
            match branch? with
            | some b => !(Yaml.isFalsy b)
            | none => false
          let repo_dir := pathJoin cloneDir name
          let rmEvents : List CloneEvent :=
            if env.dirExists repo_dir then [.rmtree repo_dir] else []
          match
            (if env.dirExists repo_dir then env.rmtreeError repo_dir
             else none) with
          | some msg =>
            .ok ({ status := "error",
                   message := some ("Unexpected error: " ++ msg),
                   url := some git_url }, rmEvents)
          | none =>
            let cmd : List Yaml :=
              [.str "git", .str "clone", .str "--depth", .str "1"]
                ++ (if branchTruthy then
                      [.str "--branch", (branch?).getD .null]
                    else [])
                ++ [.str git_url, .str repo_dir]
            match env.git cmd with
            | .success =>
              .ok ({ status := "success", path := some repo_dir,
                     branch := some (if branchTruthy then (branch?).getD .null
                                     else .str "default"),
                     url := some git_url }, rmEvents ++ [.runGit cmd])
            | .calledProcessError stderr =>
              .ok ({ status := "error",
                     message := some ("Git clone failed: " ++ stderr),
                     url := some git_url }, rmEvents ++ [.runGit cmd])
            | .unexpected msg =>
              .ok ({ status := "error",
                     message := some ("Unexpected error: " ++ msg),
                     url := some git_url }, rmEvents ++ [.runGit cmd])
        | _ => .error "AttributeError: startswith"

/-- Lines 73-143: process the catalog entries in order, keeping each
per-entry result and its effects. -/
def clone_repositories (env : CloneEnv) (cloneDir : String) :
    List (String × Yaml) →
      Except String (List (String × CloneResult × List CloneEvent))
  | [] => .ok []
  | (name, config) :: rest =>
    match cloneOne env cloneDir name config with
    | .error e => .error e
    | .ok r =>
      match clone_repositories env cloneDir rest with
      | .error e => .error e
      | .ok rs => .ok ((name, r) :: rs)

/-! The URL sanitizer (`sanitize_url`, lines 11-20). -/

/-- Python `str.replace(pat, rep)` on character lists: replace every
left-to-right non-overlapping occurrence (the patterns used here are
never empty). -/
def pyReplace (pat rep : List Char) : List Char → List Char
  | [] => []
  | c :: cs =>
    if h : pat ≠ [] ∧ pat.isPrefixOf (c :: cs) then
      rep ++ pyReplace pat rep ((c :: cs).drop pat.length)
    else
      c :: pyReplace pat rep cs
termination_by s => s.length
decreasing_by
  · have hpat : 0 < pat.length := List.length_pos.mpr h.1
    simp only [List.length_drop, List.length_cons]
    omega
  · simp

/-- Line 19:
`url_str.replace('http://', '').replace('https://', '').replace('git+', '')`. -/
def sanitize_url (url_str : String) : String :=
  String.mk (pyReplace "git+".data []
    (pyReplace "https://".data []
      (pyReplace "http://".data [] url_str.data)))

/-! Theorems. -/

theorem alookup_append {β : Type} (d e : List (String × β)) (k : String) :
    alookup (d ++ e) k =
      match alookup d k with
      | some v => some v
      | none => alookup e k := by
  induction d with
  | nil => simp [alookup]
  | cons p d ih =>
    obtain ⟨a, b⟩ := p
    by_cases hk : k = a
    · simp [alookup, hk]
    · simp [alookup, hk, ih]

theorem alookup_some_mem {β : Type} (d : List (String × β)) (k : String)
    (v : β) (h : alookup d k = some v) : k ∈ d.map Prod.fst := by
  induction d with
  | nil => simp [alookup] at h
  | cons p d ih =>
    obtain ⟨a, b⟩ := p
    by_cases hk : k = a
    · simp [hk]
    · simp only [alookup, hk, if_neg, if_false, not_false_iff] at h
      simp only [List.map_cons, List.mem_cons]
      exact Or.inr (ih h)

theorem alookup_map_set (d : Dict) (k k' : String) (v : Yaml) :
    alookup (d.map (fun p => if p.1 = k then (k, v) else p)) k' =
      if k' = k then (if (alookup d k).isSome then some v else none)
      else alookup d k' := by
  induction d with
  | nil => simp [alookup]
  | cons p d ih =>
    obtain ⟨a, b⟩ := p
    simp only [List.map_cons]
    by_cases hak : a = k
    · rw [show (if (a, b).1 = k then (k, v) else (a, b)) = (k, v) by
        simp [hak]]
      by_cases hk : k' = k
      · simp [alookup, hak, hk]
      · have hka : ¬ k' = a := fun hkk => hk (hkk.trans hak)
        simp [alookup, hk, hka, ih]
    · rw [show (if (a, b).1 = k then (k, v) else (a, b)) = (a, b) by
        simp [hak]]
      have hak' : ¬ k = a := fun hkk => hak hkk.symm
      by_cases hka : k' = a
      · have hk : ¬ k' = k := fun hkk => hak (hka.symm.trans hkk)
        simp [alookup, hka, hk, hak]
      · simp [alookup, hka, hak', ih]

theorem Dict.get?_set_self (d : Dict) (k : String) (v : Yaml) :
    (d.set k v).get? k = some v := by
  rw [Dict.set]
  by_cases hs : (Dict.get? d k).isSome
  · rw [if_pos hs]
    simp only [Dict.get?] at hs ⊢
    simp [alookup_map_set, hs]
  · rw [if_neg hs]
    simp only [Dict.get?] at hs ⊢
    rw [alookup_append]
    cases hl : alookup d k with
    | some v' => rw [hl] at hs; simp at hs
    | none => simp [alookup]

theorem Dict.get?_set_ne (d : Dict) (k k' : String) (v : Yaml)
    (h : k' ≠ k) : (d.set k v).get? k' = d.get? k' := by
  rw [Dict.set]
  by_cases hs : (Dict.get? d k).isSome
  · rw [if_pos hs]
    simp only [Dict.get?] at hs ⊢
    simp [alookup_map_set, h]
  · rw [if_neg hs]
    simp only [Dict.get?]
    rw [alookup_append]
    cases hl : alookup d k' with
    | some v' => simp
    | none => simp [alookup, h]

/-- Lookup in the result of `dict.update`: a key present in `m` (which has
Python-dict unique keys) gets `m`'s value, any other key keeps `d`'s. -/
theorem Dict.get?_update (d m : Dict) (h : (m.map Prod.fst).Nodup)
    (k : String) :
    (d.update m).get? k =
      match m.get? k with
      | some v => some v
      | none => d.get? k := by
  induction m generalizing d with
  | nil => simp [Dict.update, Dict.get?, alookup]
  | cons p m ih =>
    obtain ⟨k0, v0⟩ := p
    simp only [List.map_cons, List.nodup_cons] at h
    have hupd : Dict.update d ((k0, v0) :: m) = Dict.update (d.set k0 v0) m := rfl
    rw [hupd, ih (d.set k0 v0) h.2]
    by_cases hk : k = k0
    · subst hk
      cases hm : Dict.get? m k with
      | some v => exact absurd (alookup_some_mem m k v hm) h.1
      | none =>
        have hself := Dict.get?_set_self d k v0
        simp only [Dict.get?] at hself hm ⊢
        simp [alookup, hself, hm]
    · cases hm : Dict.get? m k with
      | some v =>
        simp only [Dict.get?] at hm ⊢
        simp [alookup, hk, hm]
      | none =>
        have hne := Dict.get?_set_ne d k0 k v0 hk
        simp only [Dict.get?] at hne hm ⊢
        simp [alookup, hk, hm, hne]


theorem pyOrEmptyDict_map (kvs : List (String × Yaml)) :
    pyOrEmptyDict (Yaml.map kvs) = Yaml.map kvs := by
  cases kvs <;> simp [pyOrEmptyDict, Yaml.isFalsy]

theorem scanItems_eq_filterMap (dirPath : String)
    (files : List (String × Except String Yaml)) :
    scanItems dirPath files = files.filterMap (fun f =>
      match f.2 with
      | .ok y => some { name := splitextStem f.1,
                        file := pathJoin dirPath f.1, config := y }
      | .error _ => none) := by
  suffices h : ∀ (fl : List (String × Except String Yaml))
      (acc : List RfnocItem), fl.foldl (fun acc f =>
      match f.2 with
      | .ok y => acc ++ [{ name := splitextStem f.1,
                           file := pathJoin dirPath f.1, config := y }]
      | .error _ => acc) acc = acc ++ fl.filterMap (fun f =>
      match f.2 with
      | .ok y => some { name := splitextStem f.1,
                        file := pathJoin dirPath f.1, config := y }
      | .error _ => none) by
    simpa [scanItems] using h files []
  intro fl
  induction fl with
  | nil => intro acc; simp
  | cons f fl ih =>
    intro acc
    cases hf : f.2 with
    | ok y => simp [List.foldl_cons, List.filterMap_cons, hf, ih]
    | error e => simp [List.foldl_cons, List.filterMap_cons, hf, ih]

theorem take_hundred_eq_take_min {α : Type} (l : List α) :
    l.take 100 = l.take (min l.length 100) := by
  rcases le_or_lt l.length 100 with h | h
  · rw [min_eq_left h, List.take_length, List.take_of_length_le h]
  · rw [min_eq_right h.le]

/-- C9: if the working directory of clones does not exist
(`os.path.exists(clone_dir)` is false at line 159), the scanner returns
the empty mapping instead of raising. -/
theorem c9_scan_missing_clone_dir_empty (cloneDir : String)
    (repoDirs : List (String × RepoFS))
    (sources : Option (List (String × Yaml))) :
    scan_cloned_repositories false cloneDir repoDirs sources = [] := rfl

/-- C7: the catalog reader keys its output by the extension-stripped base
filename of every catalog document, in order; a document whose parse
fails contributes `null` for its key, and every other document's entry is
its own parse result, unaffected. -/
theorem c7_catalog_reader_per_entry (files : List (String × Except String Yaml)) :
    (read_source_files files).map Prod.fst =
      files.map (fun f => splitextStem (basename f.1)) ∧
    (∀ p e, (p, Except.error e) ∈ files →
      (splitextStem (basename p), Yaml.null) ∈ read_source_files files) ∧
    (∀ p v, (p, Except.ok v) ∈ files →
      (splitextStem (basename p), v) ∈ read_source_files files) := by
  refine ⟨?_, ?_, ?_⟩
  · simp only [read_source_files, List.map_map]
    rfl
  · intro p e hm
    have hmem := List.mem_map_of_mem (fun f =>
      (splitextStem (basename f.1),
        match f.2 with
        | Except.ok v => v
        | Except.error _ => Yaml.null)) hm
    simpa [read_source_files] using hmem
  · intro p v hm
    have hmem := List.mem_map_of_mem (fun f =>
      (splitextStem (basename f.1),
        match f.2 with
        | Except.ok v => v
        | Except.error _ => Yaml.null)) hm
    simpa [read_source_files] using hmem

/-- C7 witness at a concrete two-file catalog, one of which fails to
parse. -/
theorem c7_witness :
    (read_source_files [("sources/alpha.yml", Except.ok (Yaml.str "x")),
        ("sources/beta.yml", Except.error "bad")]).map Prod.fst =
      ["alpha", "beta"] ∧
    (("beta" : String), Yaml.null) ∈
      read_source_files [("sources/alpha.yml", Except.ok (Yaml.str "x")),
        ("sources/beta.yml", Except.error "bad")] := by
  have h := c7_catalog_reader_per_entry
    [("sources/alpha.yml", Except.ok (Yaml.str "x")),
     ("sources/beta.yml", Except.error "bad")]
  constructor
  · rw [h.1]; rfl
  · have hb := h.2.1 "sources/beta.yml" "bad" (by simp)
    simpa using hb

/-- C3: a catalog entry whose document is `None` or is a mapping without
a `source` key is recorded with an error status; no `rmtree` and no
subprocess event happens for it, and the remaining entries are processed
exactly as they would be on their own. -/
theorem c3_missing_source_error_no_subprocess (env : CloneEnv)
    (cloneDir name : String) (config : Yaml) (rest : List (String × Yaml))
    (h : config = Yaml.null ∨
      ∃ d, config = Yaml.map d ∧ Dict.get? d "source" = none) :
    ∃ msg, cloneOne env cloneDir name config =
        .ok ({ status := "error", message := some msg }, []) ∧
      clone_repositories env cloneDir ((name, config) :: rest) =
        (clone_repositories env cloneDir rest).map
          (fun rs => (name,
            ({ status := "error", message := some msg } : CloneResult),
            ([] : List CloneEvent)) :: rs) := by
  rcases h with rfl | ⟨d, rfl, hs⟩
  · refine ⟨"Invalid YAML config", rfl, ?_⟩
    simp only [clone_repositories, cloneOne]
    cases hr : clone_repositories env cloneDir rest <;> simp [hr, Except.map]
  · have hone : cloneOne env cloneDir name (Yaml.map d) =
        .ok ({ status := "error", message := some "No source URL found" }, []) := by
      simp [cloneOne, pyContains, hs]
    refine ⟨"No source URL found", hone, ?_⟩
    simp only [clone_repositories, hone]
    cases hr : clone_repositories env cloneDir rest <;> simp [hr, Except.map]

/-- C3 witness: a null entry followed by a healthy-looking entry. -/
theorem c3_witness :
    ((Yaml.null = Yaml.null ∨
      ∃ d, Yaml.null = Yaml.map d ∧ Dict.get? d "source" = none) ∧
    ∃ msg, cloneOne
        { dirExists := fun _ => false, rmtreeError := fun _ => none,
          git := fun _ => .success } "build/cloned_repos" "broken" Yaml.null =
        .ok ({ status := "error", message := some msg }, []) ∧
      clone_repositories
        { dirExists := fun _ => false, rmtreeError := fun _ => none,
          git := fun _ => .success } "build/cloned_repos"
        [("broken", Yaml.null),
         ("good", Yaml.map [("source", Yaml.str "https://e.com/r.git")])] =
        (clone_repositories
          { dirExists := fun _ => false, rmtreeError := fun _ => none,
            git := fun _ => .success } "build/cloned_repos"
          [("good", Yaml.map [("source", Yaml.str "https://e.com/r.git")])]).map
          (fun rs => ("broken",
            ({ status := "error", message := some msg } : CloneResult),
            ([] : List CloneEvent)) :: rs)) :=
  ⟨Or.inl rfl,
    c3_missing_source_error_no_subprocess
      { dirExists := fun _ => false, rmtreeError := fun _ => none,
        git := fun _ => .success } "build/cloned_repos" "broken" Yaml.null
      [("good", Yaml.map [("source", Yaml.str "https://e.com/r.git")])]
      (Or.inl rfl)⟩


/-- Shape of the record when the seed/merge steps succeed: the merged
mapping and readme excerpt are recorded whatever the later rfnoc steps
do. -/
theorem scanRepo_fields_of_ok (sources : Option (List (String × Yaml)))
    (cloneDir name : String) (fs : RepoFS) (d merged : Dict)
    (hd : copyStep (sourceInfoOf sources name) = .ok d)
    (hm : manifestMerge d fs.manifest? = .ok merged) :
    (scanRepo sources cloneDir name fs).manifest = some merged ∧
    (scanRepo sources cloneDir name fs).readme =
      Option.map readmeExcerpt fs.readme? ∧
    (scanRepo sources cloneDir name fs).path = pathJoin cloneDir name := by
  unfold scanRepo scanRepoE
  rw [hd]
  dsimp only
  rw [hm]
  dsimp only
  cases hr : fs.readme? with
  | none =>
    cases hsub : rfnocSubpath d with
    | error e => simp
    | ok sub =>
      by_cases hc : sub ∈ fs.existingDirs
      · simp [hc]
      · simp [hc]
  | some lines =>
    cases hsub : rfnocSubpath d with
    | error e => simp
    | ok sub =>
      by_cases hc : sub ∈ fs.existingDirs
      · simp [hc]
      · simp [hc]

/-- C10: a manifest file that parses to `None` (e.g. an empty file) is
defaulted to the empty dict by line 189's `or {}`, so the merged mapping
is exactly the descriptor mapping — no error, nothing erased. -/
theorem c10_null_manifest_keeps_descriptor
    (sources : Option (List (String × Yaml))) (cloneDir name : String)
    (fs : RepoFS) (D : Dict)
    (hD : sourceInfoOf sources name = Yaml.map D)
    (hM : fs.manifest? = some (Except.ok Yaml.null)) :
    manifestMerge D fs.manifest? = .ok D ∧
    (scanRepo sources cloneDir name fs).manifest = some D := by
  have hmm : manifestMerge D fs.manifest? = .ok D := by
    rw [hM]
    simp [manifestMerge, pyOrEmptyDict, Yaml.isFalsy, Dict.update]
  have hd : copyStep (sourceInfoOf sources name) = .ok D := by
    rw [hD]; rfl
  exact ⟨hmm, (scanRepo_fields_of_ok sources cloneDir name fs D D hd hmm).1⟩

/-- C10 witness: descriptor with a title, empty (null-parsing) manifest. -/
theorem c10_witness :
    (sourceInfoOf (some [("r", Yaml.map [("title", Yaml.str "T")])]) "r" =
      Yaml.map [("title", Yaml.str "T")]) ∧
    (scanRepo (some [("r", Yaml.map [("title", Yaml.str "T")])])
        "build" "r" { manifest? := some (Except.ok Yaml.null) }).manifest =
      some [("title", Yaml.str "T")] := by
  have h := c10_null_manifest_keeps_descriptor
    (some [("r", Yaml.map [("title", Yaml.str "T")])]) "build" "r"
    { manifest? := some (Except.ok Yaml.null) }
    [("title", Yaml.str "T")] rfl rfl
  exact ⟨rfl, h.2⟩

/-- C1: with descriptor mapping `D` and a root manifest parsing to
mapping `M`, the record's merged metadata is `D` updated by `M`: on every
key, `M`'s value wins outright when present (the whole value, a shallow
top-level replacement), otherwise `D`'s survives. -/
theorem c1_manifest_overrides_descriptor
    (sources : Option (List (String × Yaml))) (cloneDir name : String)
    (fs : RepoFS) (D M : Dict) (k : String)
    (hD : sourceInfoOf sources name = Yaml.map D)
    (hM : fs.manifest? = some (Except.ok (Yaml.map M)))
    (hnd : (M.map Prod.fst).Nodup) :
    (scanRepo sources cloneDir name fs).manifest = some (Dict.update D M) ∧
    (Dict.update D M).get? k =
      (match M.get? k with
       | some v => some v
       | none => D.get? k) := by
  have hmm : manifestMerge D fs.manifest? = .ok (Dict.update D M) := by
    rw [hM]
    simp [manifestMerge, pyOrEmptyDict_map]
  have hd : copyStep (sourceInfoOf sources name) = .ok D := by
    rw [hD]; rfl
  exact ⟨(scanRepo_fields_of_ok sources cloneDir name fs D
      (Dict.update D M) hd hmm).1,
    Dict.get?_update D M hnd k⟩

/-- C1 witness: `title` collides (manifest wins), `license` is
descriptor-only (survives), `brief` is manifest-only. -/
theorem c1_witness :
    (sourceInfoOf (some [("r", Yaml.map
        [("title", Yaml.str "old"), ("license", Yaml.str "GPL")])]) "r" =
      Yaml.map [("title", Yaml.str "old"), ("license", Yaml.str "GPL")]) ∧
    (scanRepo (some [("r", Yaml.map
          [("title", Yaml.str "old"), ("license", Yaml.str "GPL")])])
        "build" "r"
        { manifest? := some (Except.ok (Yaml.map
            [("title", Yaml.str "new"), ("brief", Yaml.str "b")])) }).manifest =
      some (Dict.update
        [("title", Yaml.str "old"), ("license", Yaml.str "GPL")]
        [("title", Yaml.str "new"), ("brief", Yaml.str "b")]) ∧
    (Dict.update [("title", Yaml.str "old"), ("license", Yaml.str "GPL")]
        [("title", Yaml.str "new"), ("brief", Yaml.str "b")]).get? "title" =
      some (Yaml.str "new") ∧
    (Dict.update [("title", Yaml.str "old"), ("license", Yaml.str "GPL")]
        [("title", Yaml.str "new"), ("brief", Yaml.str "b")]).get? "license" =
      some (Yaml.str "GPL") := by
  have h := c1_manifest_overrides_descriptor
    (some [("r", Yaml.map
      [("title", Yaml.str "old"), ("license", Yaml.str "GPL")])])
    "build" "r"
    { manifest? := some (Except.ok (Yaml.map
        [("title", Yaml.str "new"), ("brief", Yaml.str "b")])) }
    [("title", Yaml.str "old"), ("license", Yaml.str "GPL")]
    [("title", Yaml.str "new"), ("brief", Yaml.str "b")]
    "title" rfl rfl (by simp)
  refine ⟨rfl, h.1, ?_, ?_⟩ <;> rfl

/-- C6: the metadata subdirectory name is the descriptor's `rfnoc_path`
when present (a string), else the fixed `rfnoc`; if no directory of that
name exists, the record keeps `has_rfnoc` false and all three item lists
empty. -/
theorem c6_rfnoc_dir_name_and_absent_dir
    (sources : Option (List (String × Yaml))) (cloneDir name : String)
    (fs : RepoFS) (d : Dict) (sub : String)
    (hd : sourceInfoOf sources name = Yaml.map d)
    (hsub : rfnocSubpath d = .ok sub)
    (hni : ¬ sub ∈ fs.existingDirs) :
    (∀ s, Dict.get? d "rfnoc_path" = some (Yaml.str s) → sub = s) ∧
    (Dict.get? d "rfnoc_path" = none → sub = "rfnoc") ∧
    (scanRepo sources cloneDir name fs).has_rfnoc = false ∧
    (scanRepo sources cloneDir name fs).rfnoc_blocks = [] ∧
    (scanRepo sources cloneDir name fs).rfnoc_modules = [] ∧
    (scanRepo sources cloneDir name fs).rfnoc_transport_adapters = [] := by
  have h1 : ∀ s, Dict.get? d "rfnoc_path" = some (Yaml.str s) → sub = s := by
    intro s hs
    have h2 := hsub
    unfold rfnocSubpath at h2
    rw [hs] at h2
    exact (Except.ok.inj h2).symm
  have h2 : Dict.get? d "rfnoc_path" = none → sub = "rfnoc" := by
    intro hn
    have h3 := hsub
    unfold rfnocSubpath at h3
    rw [hn] at h3
    exact (Except.ok.inj h3).symm
  refine ⟨h1, h2, ?_⟩
  unfold scanRepo scanRepoE
  rw [hd]
  dsimp only [copyStep]
  cases hm : manifestMerge d fs.manifest? with
  | error e => simp
  | ok merged =>
    dsimp only
    cases hr : fs.readme? with
    | none =>
      rw [hsub]
      dsimp only
      simp [hni]
    | some lines =>
      rw [hsub]
      dsimp only
      simp [hni]

/-- C6 witness: an `rfnoc_path` override naming a directory that does
not exist. -/
theorem c6_witness :
    (sourceInfoOf (some [("r", Yaml.map [("rfnoc_path", Yaml.str "rf")])])
        "r" = Yaml.map [("rfnoc_path", Yaml.str "rf")]) ∧
    (rfnocSubpath [("rfnoc_path", Yaml.str "rf")] = .ok "rf") ∧
    (scanRepo (some [("r", Yaml.map [("rfnoc_path", Yaml.str "rf")])])
        "build" "r" {}).has_rfnoc = false ∧
    (scanRepo (some [("r", Yaml.map [("rfnoc_path", Yaml.str "rf")])])
        "build" "r" {}).rfnoc_blocks = [] := by
  have h := c6_rfnoc_dir_name_and_absent_dir
    (some [("r", Yaml.map [("rfnoc_path", Yaml.str "rf")])]) "build" "r"
    {} [("rfnoc_path", Yaml.str "rf")] "rf" rfl rfl (by simp)
  exact ⟨rfl, rfl, h.2.2.1, h.2.2.2.1⟩

/-- C2: the scanner emits exactly one record per subdirectory, in listing
order, whatever happens inside the individual scans; a repository whose
guarded scan raises gets the exception message recorded in its record's
`error` field, and every record is that subdirectory's own scan result. -/
theorem c2_one_record_per_dir_and_error_field
    (sources : Option (List (String × Yaml))) (cloneDir : String)
    (dirs : List (String × RepoFS)) (name : String) (fs : RepoFS)
    (e : String) (part : RepoInfo)
    (h : scanRepoE sources cloneDir name fs = .error (e, part)) :
    (scan_cloned_repositories true cloneDir dirs sources).map Prod.fst =
      dirs.map Prod.fst ∧
    (scanRepo sources cloneDir name fs).error =
      some ("Error scanning repository: " ++ e) ∧
    scan_cloned_repositories true cloneDir dirs sources =
      dirs.map (fun p => (p.1, scanRepo sources cloneDir p.1 p.2)) := by
  refine ⟨?_, ?_, rfl⟩
  · simp [scan_cloned_repositories, List.map_map]
  · unfold scanRepo
    rw [h]

/-- C2 witness: a repository with an unparsable manifest sits next to a
healthy one; both subdirectories yield records, the broken one carrying
the error field. -/
theorem c2_witness :
    ((scan_cloned_repositories true "build"
        [("broken", { manifest? := some (Except.error "bad") }),
         ("fine", {})] none).map Prod.fst = ["broken", "fine"]) ∧
    (scanRepo none "build" "broken"
        { manifest? := some (Except.error "bad") }).error =
      some "Error scanning repository: bad" := by
  have h := c2_one_record_per_dir_and_error_field none "build"
    [("broken", { manifest? := some (Except.error "bad") }), ("fine", {})]
    "broken" { manifest? := some (Except.error "bad") } "bad"
    { path := pathJoin "build" "broken" } rfl
  exact ⟨h.1, h.2.1⟩

/-- C4: a per-item parse failure only omits that item: each discovered
list is the in-order filter of its directory's parse successes, the
other directories' lists are computed independently, and the repository
scan finishes without an error. -/
theorem c4_failed_item_skipped_siblings_kept
    (sources : Option (List (String × Yaml))) (cloneDir name : String)
    (fs : RepoFS) (d merged : Dict) (sub : String)
    (hd : sourceInfoOf sources name = Yaml.map d)
    (hm : manifestMerge d fs.manifest? = .ok merged)
    (hsub : rfnocSubpath d = .ok sub)
    (hin : sub ∈ fs.existingDirs) :
    (∀ dirPath files, scanItems dirPath files = files.filterMap (fun f =>
      match f.2 with
      | .ok y => some { name := splitextStem f.1,
                        file := pathJoin dirPath f.1, config := y }
      | .error _ => none)) ∧
    (scanRepo sources cloneDir name fs).error = none ∧
    (scanRepo sources cloneDir name fs).rfnoc_blocks =
      (if pathJoin sub "blocks" ∈ fs.existingDirs then
        scanItems (pathJoin (pathJoin cloneDir name) (pathJoin sub "blocks"))
          (fs.filesAt (pathJoin sub "blocks"))
      else []) ∧
    (scanRepo sources cloneDir name fs).rfnoc_modules =
      (if pathJoin sub "modules" ∈ fs.existingDirs then
        scanItems (pathJoin (pathJoin cloneDir name) (pathJoin sub "modules"))
          (fs.filesAt (pathJoin sub "modules"))
      else []) ∧
    (scanRepo sources cloneDir name fs).rfnoc_transport_adapters =
      (if pathJoin sub "transport_adapters" ∈ fs.existingDirs then
        scanItems
          (pathJoin (pathJoin cloneDir name) (pathJoin sub "transport_adapters"))
          (fs.filesAt (pathJoin sub "transport_adapters"))
      else []) := by
  refine ⟨scanItems_eq_filterMap, ?_⟩
  have hdc : copyStep (sourceInfoOf sources name) = .ok d := by
    rw [hd]; rfl
  unfold scanRepo scanRepoE
  rw [hdc]
  dsimp only
  rw [hm]
  dsimp only
  cases hr : fs.readme? with
  | none =>
    rw [hsub]
    dsimp only
    simp [hin]
  | some lines =>
    rw [hsub]
    dsimp only
    simp [hin]

/-- C4 witness: one unparsable block document next to a good one; the
good block and the module survive, nothing else, and no error. -/
theorem c4_witness :
    ((scanRepo none "build" "r"
        { existingDirs := ["rfnoc", "rfnoc/blocks", "rfnoc/modules"],
          files := [("rfnoc/blocks",
              [("good.yml", Except.ok (Yaml.map [("noc_id", Yaml.int 1)])),
               ("bad.yml", Except.error "parse")]),
            ("rfnoc/modules", [("m.yml", Except.ok Yaml.null)])] }).rfnoc_blocks.map
        RfnocItem.name = ["good"]) ∧
    ((scanRepo none "build" "r"
        { existingDirs := ["rfnoc", "rfnoc/blocks", "rfnoc/modules"],
          files := [("rfnoc/blocks",
              [("good.yml", Except.ok (Yaml.map [("noc_id", Yaml.int 1)])),
               ("bad.yml", Except.error "parse")]),
            ("rfnoc/modules", [("m.yml", Except.ok Yaml.null)])] }).rfnoc_modules.map
        RfnocItem.name = ["m"]) ∧
    ((scanRepo none "build" "r"
        { existingDirs := ["rfnoc", "rfnoc/blocks", "rfnoc/modules"],
          files := [("rfnoc/blocks",
              [("good.yml", Except.ok (Yaml.map [("noc_id", Yaml.int 1)])),
               ("bad.yml", Except.error "parse")]),
            ("rfnoc/modules", [("m.yml", Except.ok Yaml.null)])] }).rfnoc_transport_adapters
      = []) ∧
    ((scanRepo none "build" "r"
        { existingDirs := ["rfnoc", "rfnoc/blocks", "rfnoc/modules"],
          files := [("rfnoc/blocks",
              [("good.yml", Except.ok (Yaml.map [("noc_id", Yaml.int 1)])),
               ("bad.yml", Except.error "parse")]),
            ("rfnoc/modules", [("m.yml", Except.ok Yaml.null)])] }).error
      = none) := by
  have h := c4_failed_item_skipped_siblings_kept none "build" "r"
    { existingDirs := ["rfnoc", "rfnoc/blocks", "rfnoc/modules"],
      files := [("rfnoc/blocks",
          [("good.yml", Except.ok (Yaml.map [("noc_id", Yaml.int 1)])),
           ("bad.yml", Except.error "parse")]),
        ("rfnoc/modules", [("m.yml", Except.ok Yaml.null)])] }
    [] [] "rfnoc" rfl rfl rfl (by simp)
  refine ⟨?_, ?_, ?_, h.2.1⟩
  · rw [h.2.2.1]; rfl
  · rw [h.2.2.2.1]; rfl
  · rw [h.2.2.2.2]; rfl

/-- C5 counterexample: the excerpt is not verbatim — the trailing newline
of `hello\n` is stripped by line 201's `.strip()`. -/
theorem c5_counterexample :
    (scanRepo none "build" "repo" { readme? := some ["hello\n"] }).readme =
      some "hello" ∧
    (scanRepo none "build" "repo" { readme? := some ["hello\n"] }).readme ≠
      some (String.join ((["hello\n"] : List String).take
        (min (["hello\n"] : List String).length 100))) := by
  constructor
  · rfl
  · decide

/-- C5 amended: the excerpt is the first `min(n, 100)` lines of the
readme joined and then stripped of leading/trailing whitespace, and never
more than 100 lines are taken. -/
theorem c5_amended_readme_stripped_bounded
    (sources : Option (List (String × Yaml))) (cloneDir name : String)
    (fs : RepoFS) (lines : List String) (d merged : Dict)
    (hd : copyStep (sourceInfoOf sources name) = .ok d)
    (hm : manifestMerge d fs.manifest? = .ok merged)
    (hr : fs.readme? = some lines) :
    (scanRepo sources cloneDir name fs).readme =
      some (String.mk (pyStrip
        (String.join (lines.take (min lines.length 100))).data)) ∧
    (lines.take (min lines.length 100)).length ≤ 100 := by
  constructor
  · have h := (scanRepo_fields_of_ok sources cloneDir name fs d merged hd hm).2.1
    rw [hr] at h
    rw [h]
    show some (readmeExcerpt lines) = _
    unfold readmeExcerpt
    rw [take_hundred_eq_take_min]
  · rw [List.length_take]
    omega

/-- C5 amended witness: a two-line readme keeps both lines minus the
final newline. -/
theorem c5_witness :
    ((scanRepo none "build" "r"
        { readme? := some ["# T\n", "body\n"] }).readme =
      some "# T\nbody") ∧
    (((["# T\n", "body\n"] : List String).take
        (min (["# T\n", "body\n"] : List String).length 100)).length ≤ 100) := by
  have h := c5_amended_readme_stripped_bounded none "build" "r"
    { readme? := some ["# T\n", "body\n"] } ["# T\n", "body\n"] [] []
    rfl rfl rfl
  exact ⟨h.1.trans (by rfl), h.2⟩

theorem pyReplace_nil (pat rep : List Char) : pyReplace pat rep [] = [] := by
  simp [pyReplace]

theorem pyReplace_cons_pos (pat rep : List Char) (c : Char) (cs : List Char)
    (h1 : pat ≠ []) (h2 : pat.isPrefixOf (c :: cs) = true) :
    pyReplace pat rep (c :: cs) =
      rep ++ pyReplace pat rep ((c :: cs).drop pat.length) := by
  rw [pyReplace]
  simp [h1, h2]

theorem pyReplace_cons_neg (pat rep : List Char) (c : Char) (cs : List Char)
    (h : ¬ (pat ≠ [] ∧ pat.isPrefixOf (c :: cs) = true)) :
    pyReplace pat rep (c :: cs) = c :: pyReplace pat rep cs := by
  rw [pyReplace]
  rw [dif_neg h]

theorem isPrefixOf_append_self (l s : List Char) :
    l.isPrefixOf (l ++ s) = true := by
  induction l with
  | nil => simp [List.isPrefixOf]
  | cons c cs ih => simp [List.isPrefixOf, ih]

theorem pyReplace_head_pat (pat rep s : List Char) (h : pat ≠ []) :
    pyReplace pat rep (pat ++ s) = rep ++ pyReplace pat rep s := by
  cases hp : pat with
  | nil => exact absurd hp h
  | cons c cs =>
    rw [List.cons_append]
    rw [pyReplace_cons_pos (c :: cs) rep c (cs ++ s) (by simp)
      (by simpa using isPrefixOf_append_self (c :: cs) s)]
    exact congrArg (fun t => rep ++ pyReplace (c :: cs) rep t)
      (List.drop_left (c :: cs) s)

theorem pyReplace_append_head_ne (c0 : Char) (pt rep : List Char)
    (a b : List Char) (ha : ∀ x ∈ a, x ≠ c0) :
    pyReplace (c0 :: pt) rep (a ++ b) = a ++ pyReplace (c0 :: pt) rep b := by
  induction a with
  | nil => simp
  | cons x a ih =>
    have hx : x ≠ c0 := ha x (by simp)
    have hb : (c0 == x) = false := beq_false_of_ne (fun hxx => hx hxx.symm)
    have hneg : ¬ (((c0 :: pt) ≠ []) ∧
        (c0 :: pt).isPrefixOf (x :: (a ++ b)) = true) := by
      intro hc
      have hpre := hc.2
      simp [List.isPrefixOf, hb] at hpre
    rw [List.cons_append, pyReplace_cons_neg _ _ _ _ hneg]
    rw [ih (fun y hy => ha y (List.mem_cons_of_mem x hy))]
    simp

theorem pyReplace_no_occurrence (pat rep s : List Char) (hpat : pat ≠ [])
    (h : isSubstring pat s = false) : pyReplace pat rep s = s := by
  induction s with
  | nil => simp [pyReplace]
  | cons c cs ih =>
    simp only [isSubstring, Bool.or_eq_false_iff] at h
    have hneg : ¬ ((pat ≠ []) ∧ pat.isPrefixOf (c :: cs) = true) := by
      intro hc
      rw [h.1] at hc
      exact absurd hc.2 (by simp)
    rw [pyReplace_cons_neg _ _ _ _ hneg, ih h.2]

theorem isPrefixOf_append_false (pat l r : List Char)
    (hlen : pat.length ≤ l.length) (h : pat.isPrefixOf l = false) :
    pat.isPrefixOf (l ++ r) = false := by
  induction pat generalizing l with
  | nil => simp [List.isPrefixOf] at h
  | cons p ps ih =>
    cases l with
    | nil => simp at hlen
    | cons x xs =>
      rw [List.cons_append]
      simp only [List.isPrefixOf] at h ⊢
      cases hpx : (p == x) with
      | false => simp [hpx]
      | true =>
        simp only [hpx, Bool.true_and] at h ⊢
        exact ih xs (by simpa using hlen) h

theorem pyReplace_http_on_https (s : List Char) :
    pyReplace "http://".data [] ("https://".data ++ s) =
      "https://".data ++ pyReplace "http://".data [] s := by
  have hpre : ("http://".data).isPrefixOf ("https://".data ++ s) = false :=
    isPrefixOf_append_false "http://".data "https://".data s
      (by decide) (by decide)
  have hneg : ¬ (("http://".data ≠ []) ∧
      ("http://".data).isPrefixOf ('h' :: ("ttps://".data ++ s)) = true) := by
    intro hc
    have hc2 : ("http://".data).isPrefixOf ("https://".data ++ s) = true := hc.2
    rw [hc2] at hpre
    exact absurd hpre (by simp)
  calc pyReplace "http://".data [] ("https://".data ++ s)
      = pyReplace "http://".data [] ('h' :: ("ttps://".data ++ s)) := rfl
    _ = 'h' :: pyReplace "http://".data [] ("ttps://".data ++ s) :=
        pyReplace_cons_neg _ _ _ _ hneg
    _ = 'h' :: ("ttps://".data ++ pyReplace "http://".data [] s) := by
        have hrest := pyReplace_append_head_ne 'h' "ttp://".data []
          "ttps://".data s (by decide)
        exact congrArg (List.cons 'h') hrest
    _ = "https://".data ++ pyReplace "http://".data [] s := rfl

theorem pyReplace_http_on_gitplus (s : List Char) :
    pyReplace "http://".data [] ("git+".data ++ s) =
      "git+".data ++ pyReplace "http://".data [] s :=
  pyReplace_append_head_ne 'h' "ttp://".data [] "git+".data s (by decide)

theorem pyReplace_https_on_gitplus (s : List Char) :
    pyReplace "https://".data [] ("git+".data ++ s) =
      "git+".data ++ pyReplace "https://".data [] s :=
  pyReplace_append_head_ne 'h' "ttps://".data [] "git+".data s (by decide)

/-- C8: the sanitizer removes a leading `http://`, `https://` or `git+`
token, leaves a string containing none of the three tokens unchanged,
and is a total function of the input string (no validation, no
failure). -/
theorem c8_sanitize_url_strips_tokens (s : String) :
    sanitize_url ("http://" ++ s) = sanitize_url s ∧
    sanitize_url ("https://" ++ s) = sanitize_url s ∧
    sanitize_url ("git+" ++ s) = sanitize_url s ∧
    (isSubstring "http://".data s.data = false →
      isSubstring "https://".data s.data = false →
      isSubstring "git+".data s.data = false →
      sanitize_url s = s) := by
  refine ⟨?_, ?_, ?_, ?_⟩
  · unfold sanitize_url
    rw [String.data_append,
      pyReplace_head_pat "http://".data [] s.data (by decide)]
    rfl
  · unfold sanitize_url
    rw [String.data_append, pyReplace_http_on_https s.data,
      pyReplace_head_pat "https://".data []
        (pyReplace "http://".data [] s.data) (by decide)]
    rfl
  · unfold sanitize_url
    rw [String.data_append, pyReplace_http_on_gitplus s.data,
      pyReplace_https_on_gitplus (pyReplace "http://".data [] s.data),
      pyReplace_head_pat "git+".data []
        (pyReplace "https://".data
          (List.nil) (pyReplace "http://".data [] s.data)) (by decide)]
    rfl
  · intro h1 h2 h3
    unfold sanitize_url
    rw [pyReplace_no_occurrence "http://".data [] s.data (by decide) h1,
      pyReplace_no_occurrence "https://".data [] s.data (by decide) h2,
      pyReplace_no_occurrence "git+".data [] s.data (by decide) h3]

/-- C8 witness at a token-free input, plus the prefix-stripping instance. -/
theorem c8_witness :
    (isSubstring "http://".data ("example.com/repo" : String).data = false) ∧
    (isSubstring "https://".data ("example.com/repo" : String).data = false) ∧
    (isSubstring "git+".data ("example.com/repo" : String).data = false) ∧
    sanitize_url ("http://" ++ "example.com/repo") =
      sanitize_url "example.com/repo" ∧
    sanitize_url "example.com/repo" = "example.com/repo" := by
  have h := c8_sanitize_url_strips_tokens "example.com/repo"
  exact ⟨by decide, by decide, by decide, h.1,
    h.2.2.2 (by decide) (by decide) (by decide)⟩
